import Mathlib

/-!
Verification development for the noodles genomics codec libraries.

The CRAM compression-header subsystem is embedded shallowly: the
preservation-map builder mirrors
src/noodles-cram/src/container/compression_header/preservation_map/builder.rs,
the reader mirrors src/noodles-cram/src/reader/compression_header.rs, and the
components whose source is not in the excerpt (substitution-matrix builder,
tag-ids-dictionary builder, block framing, segment serializers/readers) are
modelled from the specification.  The BAM quality iterator and the VCF header
Info record parser are embedded from their sources directly.
-/

namespace Noodles

/-- The four unambiguous DNA bases used by the substitution matrix. -/
inductive Base
  | a
  | c
  | g
  | t
deriving DecidableEq

/-- Numeric code of a base, the fixed lexicographic base-code order. -/
def Base.code : Base → Nat
  | .a => 0
  | .c => 1
  | .g => 2
  | .t => 3

/-- Decode a wire code back to a base (total: codes are taken modulo 4). -/
def Base.ofCode (n : Nat) : Base :=
  match n % 4 with
  | 0 => .a
  | 1 => .c
  | 2 => .g
  | _ => .t

theorem Base.ofCode_code (b : Base) : Base.ofCode b.code = b := by
  cases b <;> rfl

/-- One auxiliary tag of a record: the two key bytes and the value-type byte,
as in a SAM/BAM tag such as NM:i. -/
structure TagEntry where
  k1 : Nat
  k2 : Nat
  vtype : Nat
deriving DecidableEq

/-- A tag schema: the ordered sequence of tag key/type entries of one record. -/
abbrev Schema : Type := List TagEntry

/-- Modelled from the spec: a typed record as the compression-header builder
sees it (src/noodles-cram Record is not in the excerpt): an alignment start,
the aligned read bases (none marks an ambiguous, clipped or inserted
position, which the substitution-matrix builder ignores), and the ordered
tag key/type entries. -/
structure Record where
  alignment_start : Nat
  bases : List (Option Base)
  tags : List TagEntry
deriving DecidableEq

/-- The ordered tag-key/type schema of a record, exactly as encountered. -/
def Record.schema (r : Record) : Schema := r.tags

/-- Modelled from the spec: the (reference base, read base) mismatch pairs of
one record against the reference window starting at its alignment start;
positions where either side is ambiguous are ignored. -/
def mismatch_pairs (reference : List (Option Base)) (rec : Record) :
    List (Base × Base) :=
  (List.zip (reference.drop rec.alignment_start) rec.bases).filterMap
    (fun p =>
      match p with
      | (some rb, some ab) => if rb = ab then none else some (rb, ab)
      | _ => none)

/-- A substitution-matrix row: the three alternates of one reference base,
ranked 0, 1, 2. -/
abbrev SubRow : Type := Base × Base × Base

/-- The fixed per-reference-base ranking of alternate bases. -/
structure SubstitutionMatrix where
  rowA : SubRow
  rowC : SubRow
  rowG : SubRow
  rowT : SubRow
deriving DecidableEq

/-- The row of the matrix for a given reference base. -/
def SubstitutionMatrix.row (m : SubstitutionMatrix) : Base → SubRow
  | .a => m.rowA
  | .c => m.rowC
  | .g => m.rowG
  | .t => m.rowT

/-- Decode a rank (0..2) for a reference base back to the alternate base. -/
def SubstitutionMatrix.get (m : SubstitutionMatrix) (r : Base) (rank : Nat) :
    Base :=
  match rank with
  | 0 => (m.row r).1
  | 1 => (m.row r).2.1
  | _ => (m.row r).2.2

/-- Modelled from the spec: the substitution-matrix builder state
(src/noodles-cram substitution_matrix::Builder is not in the excerpt): a
frequency counter keyed by (reference base, alternate base). -/
structure SubstitutionMatrixBuilder where
  freq : Base → Base → Nat

/-- Increment the counter of one observed mismatch pair. -/
def bumpFreq (f : Base → Base → Nat) (p : Base × Base) : Base → Base → Nat :=
  fun r x => if r = p.1 ∧ x = p.2 then f r x + 1 else f r x

/-- Modelled from the spec: update folds every mismatching aligned-base pair
of the record into the frequency counters. -/
def SubstitutionMatrixBuilder.update (b : SubstitutionMatrixBuilder)
    (reference : List (Option Base)) (rec : Record) :
    SubstitutionMatrixBuilder :=
  ⟨(mismatch_pairs reference rec).foldl bumpFreq b.freq⟩

/-- Strict comparison used to rank alternates: higher observed frequency
first, frequency ties broken by the fixed lexicographic base-code order. -/
def substLt (f : Base → Base → Nat) (r u v : Base) : Bool :=
  decide (f r v < f r u ∨ (f r u = f r v ∧ u.code < v.code))

/-- Sort three bases with a strict comparison (a three-element sorting
network). -/
def sort3 (lt : Base → Base → Bool) : SubRow → SubRow :=
  fun s =>
    match s with
    | (x, y, z) =>
      let p1 : Base × Base := if lt y x then (y, x) else (x, y)
      let p2 : Base × Base := if lt z p1.2 then (z, p1.2) else (p1.2, z)
      let p3 : Base × Base := if lt p2.1 p1.1 then (p2.1, p1.1) else (p1.1, p2.1)
      (p3.1, p3.2, p2.2)

/-- The ranked row for one reference base, from the three alternates listed
in base-code order. -/
def rankRow (f : Base → Base → Nat) (r x y z : Base) : SubRow :=
  sort3 (substLt f r) (x, y, z)

/-- Modelled from the spec: build ranks, for each of the 4 reference bases,
its 3 alternates by descending frequency with the fixed base-code tie-break. -/
def SubstitutionMatrixBuilder.build (b : SubstitutionMatrixBuilder) :
    SubstitutionMatrix :=
  { rowA := rankRow b.freq .a .c .g .t
    rowC := rankRow b.freq .c .a .g .t
    rowG := rankRow b.freq .g .a .c .t
    rowT := rankRow b.freq .t .a .c .g }

/-- The default substitution-matrix builder: all counters zero. -/
def SubstitutionMatrixBuilder.default : SubstitutionMatrixBuilder :=
  ⟨fun _ _ => 0⟩

/-- Modelled from the spec: the tag-ids-dictionary builder state
(src/noodles-cram tag_ids_dictionary::Builder is not in the excerpt): the
distinct schemas in first-seen order. -/
structure TagIdsDictionaryBuilder where
  entries : List Schema

/-- Modelled from the spec: update reuses the index of a previously seen
schema and otherwise appends the new schema, which receives the next index. -/
def TagIdsDictionaryBuilder.update (b : TagIdsDictionaryBuilder)
    (rec : Record) : TagIdsDictionaryBuilder :=
  if rec.schema ∈ b.entries then b else ⟨b.entries ++ [rec.schema]⟩

/-- Build returns the finalized, order-stable catalog. -/
def TagIdsDictionaryBuilder.build (b : TagIdsDictionaryBuilder) :
    List Schema :=
  b.entries

/-- The default tag-ids-dictionary builder: no schemas seen. -/
def TagIdsDictionaryBuilder.default : TagIdsDictionaryBuilder := ⟨[]⟩

/-- First-seen index of a schema in the catalog. -/
def indexOfSchema : List Schema → Schema → Option Nat
  | [], _ => none
  | s :: rest, sch =>
    if s = sch then some 0 else (indexOfSchema rest sch).map (· + 1)

/-- The container-wide preservation map: three policy flags plus the owned
substitution matrix and tag-ids dictionary. -/
structure PreservationMap where
  read_names_included : Bool
  ap_data_series_delta : Bool
  reference_required : Bool
  substitution_matrix : SubstitutionMatrix
  tag_ids_dictionary : List Schema
deriving DecidableEq

/-- The preservation-map builder, from
src/noodles-cram/src/container/compression_header/preservation_map/builder.rs. -/
structure PMBuilder where
  read_names_included : Bool
  ap_data_series_delta : Bool
  reference_required : Bool
  substitution_matrix_builder : SubstitutionMatrixBuilder
  tag_ids_dictionary_builder : TagIdsDictionaryBuilder

/-- Fluent setter for the read-names-included flag. -/
def PMBuilder.set_read_names_included (b : PMBuilder) (v : Bool) : PMBuilder :=
  { b with read_names_included := v }

/-- Fluent setter for the AP-data-series-delta flag. -/
def PMBuilder.set_ap_data_series_delta (b : PMBuilder) (v : Bool) : PMBuilder :=
  { b with ap_data_series_delta := v }

/-- Fluent setter for the reference-required flag. -/
def PMBuilder.set_reference_required (b : PMBuilder) (v : Bool) : PMBuilder :=
  { b with reference_required := v }

/-- Update delegates to the substitution-matrix and tag-ids-dictionary
builders. -/
def PMBuilder.update (b : PMBuilder) (reference : List (Option Base))
    (rec : Record) : PMBuilder :=
  { b with
    substitution_matrix_builder :=
      b.substitution_matrix_builder.update reference rec
    tag_ids_dictionary_builder := b.tag_ids_dictionary_builder.update rec }

/-- Build finalizes both sub-builders and assembles the preservation map. -/
def PMBuilder.build (b : PMBuilder) : PreservationMap :=
  { read_names_included := b.read_names_included
    ap_data_series_delta := b.ap_data_series_delta
    reference_required := b.reference_required
    substitution_matrix := b.substitution_matrix_builder.build
    tag_ids_dictionary := b.tag_ids_dictionary_builder.build }

/-- The default builder: the three optional boolean flags default to true per
the format specification. -/
def PMBuilder.default : PMBuilder :=
  { read_names_included := true
    ap_data_series_delta := true
    reference_required := true
    substitution_matrix_builder := SubstitutionMatrixBuilder.default
    tag_ids_dictionary_builder := TagIdsDictionaryBuilder.default }

/-- An encoding descriptor: a closed tagged variant over codec families, each
carrying only the parameters its family needs.  Modelled from the spec. -/
inductive Encoding
  | external (block_content_id : Nat)
  | huffman (alphabet : List Nat) (bit_lens : List Nat)
  | beta (offset : Nat) (len : Nat)
  | byte_array_stop (stop_byte : Nat) (block_content_id : Nat)
deriving DecidableEq

/-- The aggregate compression header: preservation map plus the two encoding
tables. -/
structure CompressionHeader where
  preservation_map : PreservationMap
  data_series_encodings : List (Nat × Encoding)
  tag_encodings : List (Nat × Encoding)
deriving DecidableEq

/-- Modelled from the spec: block framing (src/noodles-cram Block is not in
the excerpt): a compression-method tag, declared raw size, compressed size,
checksum, and the compressed payload. -/
structure Block where
  compression_method : Nat
  raw_size : Nat
  compressed_size : Nat
  checksum : Nat
  payload : List Nat
deriving DecidableEq

/-- The errors Block decompression can surface. -/
inductive BlockError
  | unsupported_method
  | corrupt_payload
deriving DecidableEq

/-- Modelled from the spec: the payload checksum (a 32-bit digest of the raw
bytes; the concrete digest is a pluggable detail). -/
def blockChecksum (bytes : List Nat) : Nat :=
  (bytes.foldl (fun acc b => acc + b + 7) 11) % (2 ^ 32)

/-- Modelled from the spec: pluggable named decompression codecs; method tag
0 is the raw (stored) method, other tags are unrecognized here. -/
def decompress (method : Nat) (payload : List Nat) : Option (List Nat) :=
  if method = 0 then some payload else none

/-- Modelled from the spec: decompressed_data applies the declared method,
failing with unsupported_method for an unrecognized tag, and checks the
declared raw size and checksum, failing with corrupt_payload on mismatch. -/
def Block.decompressed_data (b : Block) : Except BlockError (List Nat) :=
  match decompress b.compression_method b.payload with
  | none => .error .unsupported_method
  | some data =>
    if data.length = b.raw_size ∧ blockChecksum data = b.checksum then
      .ok data
    else
      .error .corrupt_payload

/-! ### The serialized wire form of a compression header.

Modelled from the spec: the serialized segment layout is
flags, substitution matrix, tag-ids dictionary, data-series encoding table,
tag encoding table, with length-prefixed sequences. -/

/-- Encode one boolean flag. -/
def encode_bool (b : Bool) : List Nat := [cond b 1 0]

/-- Encode a substitution-matrix row as three base codes. -/
def encode_row (r : SubRow) : List Nat := [r.1.code, r.2.1.code, r.2.2.code]

/-- Encode the fixed-size substitution matrix. -/
def encode_matrix (m : SubstitutionMatrix) : List Nat :=
  encode_row m.rowA ++ encode_row m.rowC ++ encode_row m.rowG ++
    encode_row m.rowT

/-- Encode one tag key/type entry. -/
def encode_tag_entry (e : TagEntry) : List Nat := [e.k1, e.k2, e.vtype]

/-- Concatenate the encodings of a sequence of elements. -/
def concat_encode (enc : α → List Nat) : List α → List Nat
  | [] => []
  | x :: xs => enc x ++ concat_encode enc xs

/-- Encode a length-prefixed sequence. -/
def encode_seq (enc : α → List Nat) (l : List α) : List Nat :=
  l.length :: concat_encode enc l

/-- Encode one schema as a length-prefixed sequence of tag entries. -/
def encode_schema (s : Schema) : List Nat := encode_seq encode_tag_entry s

/-- Encode the tag-ids dictionary as a length-prefixed sequence of schemas. -/
def encode_dict (d : List Schema) : List Nat := encode_seq encode_schema d

/-- Encode the preservation-map segment: flags, then substitution matrix,
then tag-ids dictionary. -/
def encode_preservation_map (p : PreservationMap) : List Nat :=
  encode_bool p.read_names_included ++ encode_bool p.ap_data_series_delta ++
    encode_bool p.reference_required ++ encode_matrix p.substitution_matrix ++
    encode_dict p.tag_ids_dictionary

/-- Encode one item as itself. -/
def encode_item (n : Nat) : List Nat := [n]

/-- Encode an encoding descriptor: a family tag followed by the family's own
parameters. -/
def encode_encoding : Encoding → List Nat
  | .external b => 0 :: [b]
  | .huffman al ls => 1 :: (encode_seq encode_item al ++ encode_seq encode_item ls)
  | .beta off len => 2 :: [off, len]
  | .byte_array_stop s b => 3 :: [s, b]

/-- Encode one (identifier, encoding descriptor) table entry. -/
def encode_table_entry (p : Nat × Encoding) : List Nat :=
  p.1 :: encode_encoding p.2

/-- Encode an encoding table as a length-prefixed sequence of entries. -/
def encode_table (t : List (Nat × Encoding)) : List Nat :=
  encode_seq encode_table_entry t

/-- Serialize a whole compression header: preservation map, data-series
encoding table, tag encoding table, in that order. -/
def serialize_compression_header (h : CompressionHeader) : List Nat :=
  encode_preservation_map h.preservation_map ++
    encode_table h.data_series_encodings ++ encode_table h.tag_encodings

/-! ### The reader.

The reader parses one block's decompressed data, strictly in the order
preservation map, data-series encoding table, tag encoding table, as in
src/noodles-cram/src/reader/compression_header.rs; the segment readers
themselves are modelled from the spec.  The only error a segment reader can
produce is running past the end of the buffer. -/

/-- The header-parsing error: a segment ran past the end of the buffer. -/
inductive HeaderError
  | truncated_header
deriving DecidableEq

/-- A reader over the decompressed data: it consumes an initial span and
returns the parsed value with the remaining data, or fails. -/
def Rd (α : Type) : Type := List Nat → Except HeaderError (α × List Nat)

/-- Read one item, failing at the end of the buffer. -/
def rd_item : Rd Nat := fun s =>
  match s with
  | [] => .error .truncated_header
  | x :: rest => .ok (x, rest)

/-- A reader returning a value without consuming input. -/
def rd_pure (a : α) : Rd α := fun s => .ok (a, s)

/-- Sequence two readers. -/
def rd_bind (p : Rd α) (f : α → Rd β) : Rd β := fun s =>
  match p s with
  | .error e => .error e
  | .ok (a, r) => f a r

/-- Map over a reader's result. -/
def rd_map (g : α → β) (p : Rd α) : Rd β :=
  rd_bind p (fun a => rd_pure (g a))

/-- Read a fixed count of elements. -/
def rd_count (p : Rd α) : Nat → Rd (List α)
  | 0 => rd_pure []
  | n + 1 =>
    rd_bind p (fun x => rd_bind (rd_count p n) (fun xs => rd_pure (x :: xs)))

/-- Read a length-prefixed sequence. -/
def rd_seq (p : Rd α) : Rd (List α) :=
  rd_bind rd_item (fun n => rd_count p n)

/-- Read one boolean flag. -/
def read_bool : Rd Bool := rd_map (fun n => n != 0) rd_item

/-- Read one base code. -/
def read_base : Rd Base := rd_map Base.ofCode rd_item

/-- Read one substitution-matrix row. -/
def read_row : Rd SubRow :=
  rd_bind read_base fun x =>
    rd_bind read_base fun y => rd_map (fun z => (x, y, z)) read_base

/-- Read the fixed-size substitution matrix. -/
def read_substitution_matrix : Rd SubstitutionMatrix :=
  rd_bind read_row fun ra =>
    rd_bind read_row fun rc =>
      rd_bind read_row fun rg =>
        rd_map (fun rt => ⟨ra, rc, rg, rt⟩) read_row

/-- Read one tag key/type entry. -/
def read_tag_entry : Rd TagEntry :=
  rd_bind rd_item fun a =>
    rd_bind rd_item fun b => rd_map (fun c => ⟨a, b, c⟩) rd_item

/-- Read one schema. -/
def read_schema : Rd Schema := rd_seq read_tag_entry

/-- Read the tag-ids dictionary. -/
def read_tag_ids_dictionary : Rd (List Schema) := rd_seq read_schema

/-- Read the preservation-map segment: flags, then the substitution matrix,
then the tag-ids dictionary. -/
def read_preservation_map : Rd PreservationMap :=
  rd_bind read_bool fun f1 =>
    rd_bind read_bool fun f2 =>
      rd_bind read_bool fun f3 =>
        rd_bind read_substitution_matrix fun m =>
          rd_map (fun d => ⟨f1, f2, f3, m, d⟩) read_tag_ids_dictionary

/-- Read one encoding descriptor, dispatching on the family tag. -/
def read_encoding : Rd Encoding :=
  rd_bind rd_item fun t =>
    if t % 4 = 0 then rd_map Encoding.external rd_item
    else if t % 4 = 1 then
      rd_bind (rd_seq rd_item) fun al =>
        rd_map (Encoding.huffman al) (rd_seq rd_item)
    else if t % 4 = 2 then
      rd_bind rd_item fun o => rd_map (Encoding.beta o) rd_item
    else
      rd_bind rd_item fun a => rd_map (Encoding.byte_array_stop a) rd_item

/-- Read one (identifier, encoding descriptor) table entry. -/
def read_table_entry : Rd (Nat × Encoding) :=
  rd_bind rd_item fun i => rd_map (fun e => (i, e)) read_encoding

/-- Read the data-series encoding table. -/
def read_data_series_encodings : Rd (List (Nat × Encoding)) :=
  rd_seq read_table_entry

/-- Read the tag encoding table. -/
def read_tag_encodings : Rd (List (Nat × Encoding)) :=
  rd_seq read_table_entry

/-- Parse a whole compression header from decompressed block data: the
preservation map, then the data-series encoding table, then the tag encoding
table, as in read_compression_header. -/
def read_compression_header_data : Rd CompressionHeader :=
  rd_bind read_preservation_map fun pm =>
    rd_bind read_data_series_encodings fun ds =>
      rd_map (fun te => ⟨pm, ds, te⟩) read_tag_encodings

/-- The full reader of src/noodles-cram/src/reader/compression_header.rs:
decompress the block, then parse the three segments in order. -/
def read_compression_header (b : Block) :
    Except (BlockError ⊕ HeaderError) CompressionHeader :=
  match b.decompressed_data with
  | .error e => .error (.inl e)
  | .ok data =>
    match read_compression_header_data data with
    | .error e => .error (.inr e)
    | .ok (h, _) => .ok h

/-- Modelled from the spec: the default data-series encoding table the
compression-header builder emits (the full-header builder is not in the
excerpt; the table's concrete entries are a fixed, order-stable default). -/
def default_data_series_encodings : List (Nat × Encoding) :=
  [(0, .external 1), (1, .beta 0 32), (2, .byte_array_stop 9 2)]

/-- Modelled from the spec: one tag-encoding entry per dictionary schema, in
schema-index order. -/
def tag_encodings_for (d : List Schema) : List (Nat × Encoding) :=
  (List.range d.length).map (fun i => (i, Encoding.byte_array_stop 9 (i + 4)))

/-- Modelled from the spec: the compression-header builder streams every
record through the preservation-map builder and finalizes the three
structures. -/
def build_compression_header (R : List (List (Option Base) × Record)) :
    CompressionHeader :=
  let pm := (R.foldl (fun b pr => b.update pr.1 pr.2) PMBuilder.default).build
  { preservation_map := pm
    data_series_encodings := default_data_series_encodings
    tag_encodings := tag_encodings_for pm.tag_ids_dictionary }

/-! ### Round-trip lemmas: each segment reader parses back what the
serializer wrote, leaving the rest of the buffer untouched. -/

theorem rd_bind_ok {α β : Type} {p : Rd α} {f : α → Rd β} {s : List Nat}
    {a : α} {r : List Nat} (h : p s = .ok (a, r)) : rd_bind p f s = f a r := by
  unfold rd_bind
  rw [h]

theorem rd_bind_err {α β : Type} {p : Rd α} {f : α → Rd β} {s : List Nat}
    {e : HeaderError} (h : p s = .error e) : rd_bind p f s = .error e := by
  unfold rd_bind
  rw [h]

theorem rt_item (n : Nat) (t : List Nat) : rd_item (encode_item n ++ t) = .ok (n, t) :=
  rfl

theorem rt_bool (b : Bool) (t : List Nat) :
    read_bool (encode_bool b ++ t) = .ok (b, t) := by
  cases b <;> rfl

theorem rt_base (b : Base) (t : List Nat) :
    read_base ([b.code] ++ t) = .ok (b, t) := by
  cases b <;> rfl

theorem rt_row (r : SubRow) (t : List Nat) :
    read_row (encode_row r ++ t) = .ok (r, t) := by
  obtain ⟨x, y, z⟩ := r
  show read_row ([x.code] ++ ([y.code] ++ ([z.code] ++ t))) = .ok ((x, y, z), t)
  unfold read_row
  rw [rd_bind_ok (rt_base x _), rd_bind_ok (rt_base y _)]
  unfold rd_map
  rw [rd_bind_ok (rt_base z _)]
  rfl

theorem rt_matrix (m : SubstitutionMatrix) (t : List Nat) :
    read_substitution_matrix (encode_matrix m ++ t) = .ok (m, t) := by
  obtain ⟨ra, rc, rg, rtt⟩ := m
  have hs : encode_matrix ⟨ra, rc, rg, rtt⟩ ++ t =
      encode_row ra ++ (encode_row rc ++ (encode_row rg ++ (encode_row rtt ++ t))) := by
    simp [encode_matrix, List.append_assoc]
  rw [hs]
  unfold read_substitution_matrix
  rw [rd_bind_ok (rt_row ra _), rd_bind_ok (rt_row rc _), rd_bind_ok (rt_row rg _)]
  unfold rd_map
  rw [rd_bind_ok (rt_row rtt _)]
  rfl

theorem rt_count {α : Type} {p : Rd α} {enc : α → List Nat}
    (h : ∀ a t, p (enc a ++ t) = .ok (a, t)) (l : List α) (t : List Nat) :
    rd_count p l.length (concat_encode enc l ++ t) = .ok (l, t) := by
  induction l generalizing t with
  | nil => rfl
  | cons x xs ih =>
    have hs : concat_encode enc (x :: xs) ++ t =
        enc x ++ (concat_encode enc xs ++ t) := by
      simp [concat_encode, List.append_assoc]
    show rd_count p (xs.length + 1) (concat_encode enc (x :: xs) ++ t) = _
    rw [hs]
    unfold rd_count
    rw [rd_bind_ok (h x _), rd_bind_ok (ih t)]
    rfl

theorem rt_seq {α : Type} {p : Rd α} {enc : α → List Nat}
    (h : ∀ a t, p (enc a ++ t) = .ok (a, t)) (l : List α) (t : List Nat) :
    rd_seq p (encode_seq enc l ++ t) = .ok (l, t) := by
  have hs : encode_seq enc l ++ t = l.length :: (concat_encode enc l ++ t) := by
    simp [encode_seq]
  rw [hs]
  unfold rd_seq
  rw [rd_bind_ok (show rd_item (l.length :: (concat_encode enc l ++ t)) = .ok (l.length, concat_encode enc l ++ t) from rfl)]
  exact rt_count h l t

theorem rt_tag_entry (e : TagEntry) (t : List Nat) :
    read_tag_entry (encode_tag_entry e ++ t) = .ok (e, t) := by
  obtain ⟨a, b, c⟩ := e
  rfl

theorem rt_schema (s : Schema) (t : List Nat) :
    read_schema (encode_schema s ++ t) = .ok (s, t) :=
  rt_seq rt_tag_entry s t

theorem rt_dict (d : List Schema) (t : List Nat) :
    read_tag_ids_dictionary (encode_dict d ++ t) = .ok (d, t) :=
  rt_seq rt_schema d t

theorem rt_preservation_map (p : PreservationMap) (t : List Nat) :
    read_preservation_map (encode_preservation_map p ++ t) = .ok (p, t) := by
  obtain ⟨f1, f2, f3, m, d⟩ := p
  have hs : encode_preservation_map ⟨f1, f2, f3, m, d⟩ ++ t =
      encode_bool f1 ++ (encode_bool f2 ++ (encode_bool f3 ++
        (encode_matrix m ++ (encode_dict d ++ t)))) := by
    simp [encode_preservation_map, List.append_assoc]
  rw [hs]
  unfold read_preservation_map
  rw [rd_bind_ok (rt_bool f1 _), rd_bind_ok (rt_bool f2 _),
    rd_bind_ok (rt_bool f3 _), rd_bind_ok (rt_matrix m _)]
  unfold rd_map
  rw [rd_bind_ok (rt_dict d _)]
  rfl

theorem rt_encoding (e : Encoding) (t : List Nat) :
    read_encoding (encode_encoding e ++ t) = .ok (e, t) := by
  cases e with
  | external b => rfl
  | huffman al ls =>
    have hs : encode_encoding (.huffman al ls) ++ t =
        1 :: (encode_seq encode_item al ++ (encode_seq encode_item ls ++ t)) := by
      simp [encode_encoding, List.append_assoc]
    rw [hs]
    unfold read_encoding
    rw [rd_bind_ok (show rd_item (1 :: (encode_seq encode_item al ++ (encode_seq encode_item ls ++ t))) = .ok (1, encode_seq encode_item al ++ (encode_seq encode_item ls ++ t)) from rfl)]
    show rd_bind (rd_seq rd_item)
        (fun xs => rd_map (Encoding.huffman xs) (rd_seq rd_item))
        (encode_seq encode_item al ++ (encode_seq encode_item ls ++ t)) = _
    rw [rd_bind_ok (rt_seq rt_item al _)]
    unfold rd_map
    rw [rd_bind_ok (rt_seq rt_item ls _)]
    rfl
  | beta o l => rfl
  | byte_array_stop s b => rfl

theorem rt_table_entry (p : Nat × Encoding) (t : List Nat) :
    read_table_entry (encode_table_entry p ++ t) = .ok (p, t) := by
  obtain ⟨i, e⟩ := p
  have hs : encode_table_entry (i, e) ++ t = i :: (encode_encoding e ++ t) := by
    simp [encode_table_entry]
  rw [hs]
  unfold read_table_entry
  rw [rd_bind_ok (show rd_item (i :: (encode_encoding e ++ t)) = .ok (i, encode_encoding e ++ t) from rfl)]
  unfold rd_map
  rw [rd_bind_ok (rt_encoding e _)]
  rfl

theorem rt_data_series_encodings (l : List (Nat × Encoding)) (t : List Nat) :
    read_data_series_encodings (encode_table l ++ t) = .ok (l, t) :=
  rt_seq rt_table_entry l t

theorem rt_tag_encodings (l : List (Nat × Encoding)) (t : List Nat) :
    read_tag_encodings (encode_table l ++ t) = .ok (l, t) :=
  rt_seq rt_table_entry l t

theorem rt_compression_header (h : CompressionHeader) (t : List Nat) :
    read_compression_header_data (serialize_compression_header h ++ t) =
      .ok (h, t) := by
  obtain ⟨pm, ds, te⟩ := h
  have hs : serialize_compression_header ⟨pm, ds, te⟩ ++ t =
      encode_preservation_map pm ++ (encode_table ds ++ (encode_table te ++ t)) := by
    simp [serialize_compression_header, List.append_assoc]
  rw [hs]
  unfold read_compression_header_data
  rw [rd_bind_ok (rt_preservation_map pm _),
    rd_bind_ok (rt_data_series_encodings ds _)]
  unfold rd_map
  rw [rd_bind_ok (rt_tag_encodings te _)]
  rfl

/-! ### Consumption: a successful reader consumed exactly an initial span of
the buffer, and its result depends only on that span. -/

/-- A reader consumes an initial span: on success the input splits as the
consumed span plus the remainder, and the same span followed by anything
parses to the same value. -/
def RdConsumes {α : Type} (p : Rd α) : Prop :=
  ∀ s a r, p s = .ok (a, r) → ∃ c, s = c ++ r ∧ ∀ t, p (c ++ t) = .ok (a, t)

theorem consumes_item : RdConsumes rd_item := by
  intro s a r h
  cases s with
  | nil => exact absurd h (by simp [rd_item])
  | cons x rest =>
    refine ⟨[x], ?_, ?_⟩
    · have : a = x ∧ r = rest := by
        have h' := h
        simp only [rd_item] at h'
        exact ⟨(Prod.mk.injEq _ _ _ _).mp (Except.ok.inj h') |>.1.symm,
          (Prod.mk.injEq _ _ _ _).mp (Except.ok.inj h') |>.2.symm⟩
      simp [this.2]
    · intro t
      have : a = x := by
        have h' := h
        simp only [rd_item] at h'
        exact ((Prod.mk.injEq _ _ _ _).mp (Except.ok.inj h')).1.symm
      simp [rd_item, this]

theorem consumes_pure (a : α) : RdConsumes (rd_pure a) := by
  intro s b r h
  have h' : a = b ∧ s = r := by
    simp only [rd_pure] at h
    exact ⟨((Prod.mk.injEq _ _ _ _).mp (Except.ok.inj h)).1,
      ((Prod.mk.injEq _ _ _ _).mp (Except.ok.inj h)).2⟩
  refine ⟨[], by simp [h'.2], ?_⟩
  intro t
  simp [rd_pure, h'.1]

theorem consumes_bind {α β : Type} {p : Rd α} {f : α → Rd β}
    (hp : RdConsumes p) (hf : ∀ a, RdConsumes (f a)) :
    RdConsumes (rd_bind p f) := by
  intro s b r h
  cases hps : p s with
  | error e =>
    rw [rd_bind_err hps] at h
    exact absurd h (by simp)
  | ok v =>
    obtain ⟨a, r1⟩ := v
    rw [rd_bind_ok hps] at h
    obtain ⟨c1, hs1, hrun1⟩ := hp s a r1 hps
    obtain ⟨c2, hs2, hrun2⟩ := hf a r1 b r h
    refine ⟨c1 ++ c2, ?_, ?_⟩
    · rw [hs1, hs2, List.append_assoc]
    · intro t
      have : c1 ++ c2 ++ t = c1 ++ (c2 ++ t) := by rw [List.append_assoc]
      rw [this, rd_bind_ok (hrun1 (c2 ++ t))]
      exact hrun2 t

theorem consumes_map {α β : Type} {p : Rd α} (g : α → β) (hp : RdConsumes p) :
    RdConsumes (rd_map g p) :=
  consumes_bind hp (fun a => consumes_pure (g a))

theorem consumes_count {α : Type} {p : Rd α} (hp : RdConsumes p) :
    ∀ n, RdConsumes (rd_count p n)
  | 0 => consumes_pure []
  | n + 1 =>
    consumes_bind hp
      (fun x => consumes_bind (consumes_count hp n) (fun xs => consumes_pure (x :: xs)))

theorem consumes_seq {α : Type} {p : Rd α} (hp : RdConsumes p) :
    RdConsumes (rd_seq p) :=
  consumes_bind consumes_item (fun n => consumes_count hp n)

theorem consumes_bool : RdConsumes read_bool :=
  consumes_map _ consumes_item

theorem consumes_base : RdConsumes read_base :=
  consumes_map _ consumes_item

theorem consumes_row : RdConsumes read_row :=
  consumes_bind consumes_base
    (fun _ => consumes_bind consumes_base (fun _ => consumes_map _ consumes_base))

theorem consumes_matrix : RdConsumes read_substitution_matrix :=
  consumes_bind consumes_row
    (fun _ => consumes_bind consumes_row
      (fun _ => consumes_bind consumes_row (fun _ => consumes_map _ consumes_row)))

theorem consumes_tag_entry : RdConsumes read_tag_entry :=
  consumes_bind consumes_item
    (fun _ => consumes_bind consumes_item (fun _ => consumes_map _ consumes_item))

theorem consumes_schema : RdConsumes read_schema :=
  consumes_seq consumes_tag_entry

theorem consumes_dict : RdConsumes read_tag_ids_dictionary :=
  consumes_seq consumes_schema

theorem consumes_preservation_map : RdConsumes read_preservation_map :=
  consumes_bind consumes_bool
    (fun _ => consumes_bind consumes_bool
      (fun _ => consumes_bind consumes_bool
        (fun _ => consumes_bind consumes_matrix
          (fun _ => consumes_map _ consumes_dict))))

theorem consumes_encoding : RdConsumes read_encoding := by
  unfold read_encoding
  refine consumes_bind consumes_item (fun t => ?_)
  by_cases h0 : t % 4 = 0
  · rw [if_pos h0]
    exact consumes_map _ consumes_item
  · rw [if_neg h0]
    by_cases h1 : t % 4 = 1
    · rw [if_pos h1]
      exact consumes_bind (consumes_seq consumes_item)
        (fun _ => consumes_map _ (consumes_seq consumes_item))
    · rw [if_neg h1]
      by_cases h2 : t % 4 = 2
      · rw [if_pos h2]
        exact consumes_bind consumes_item (fun _ => consumes_map _ consumes_item)
      · rw [if_neg h2]
        exact consumes_bind consumes_item (fun _ => consumes_map _ consumes_item)

theorem consumes_table_entry : RdConsumes read_table_entry :=
  consumes_bind consumes_item (fun _ => consumes_map _ consumes_encoding)

theorem consumes_data_series_encodings : RdConsumes read_data_series_encodings :=
  consumes_seq consumes_table_entry

theorem consumes_tag_encodings : RdConsumes read_tag_encodings :=
  consumes_seq consumes_table_entry

theorem consumes_compression_header : RdConsumes read_compression_header_data :=
  consumes_bind consumes_preservation_map
    (fun _ => consumes_bind consumes_data_series_encodings
      (fun _ => consumes_map _ consumes_tag_encodings))

/-! ### Frequency counting: the substitution-matrix builder state is the
mismatch multiset's count function. -/

theorem bumpFreq_eq (f : Base → Base → Nat) (p : Base × Base) (r x : Base) :
    bumpFreq f p r x = f r x + if p = (r, x) then 1 else 0 := by
  obtain ⟨p1, p2⟩ := p
  by_cases h : r = p1 ∧ x = p2
  · obtain ⟨h1, h2⟩ := h
    subst h1
    subst h2
    simp [bumpFreq]
  · have hne : ¬ (p1, p2) = (r, x) := by
      intro hc
      exact h ⟨(Prod.mk.injEq _ _ _ _).mp hc |>.1.symm,
        (Prod.mk.injEq _ _ _ _).mp hc |>.2.symm⟩
    simp [bumpFreq, h, hne]

theorem foldl_bumpFreq_count (l : List (Base × Base)) (f : Base → Base → Nat)
    (r x : Base) :
    (l.foldl bumpFreq f) r x = f r x + l.count (r, x) := by
  induction l generalizing f with
  | nil => simp
  | cons p rest ih =>
    show (rest.foldl bumpFreq (bumpFreq f p)) r x = _
    rw [ih (bumpFreq f p), bumpFreq_eq]
    have : rest.count (r, x) + (if (r, x) = p then 1 else 0) =
        (if p = (r, x) then 1 else 0) + rest.count (r, x) := by
      by_cases h : p = (r, x)
      · simp [h]
        omega
      · have h2 : ¬ (r, x) = p := fun hc => h hc.symm
        simp [h, h2]
    rw [List.count_cons]
    simp only [beq_iff_eq]
    omega

/-- The mismatch pairs contributed by a whole record stream, in order. -/
def all_mismatches : List (List (Option Base) × Record) → List (Base × Base)
  | [] => []
  | pr :: rest => mismatch_pairs pr.1 pr.2 ++ all_mismatches rest

/-- The substitution-matrix builder after streaming every record. -/
def substitution_builder_of_stream (R : List (List (Option Base) × Record)) :
    SubstitutionMatrixBuilder :=
  R.foldl (fun b pr => b.update pr.1 pr.2) SubstitutionMatrixBuilder.default

/-- The substitution matrix built from a record stream. -/
def substitution_matrix_of_stream (R : List (List (Option Base) × Record)) :
    SubstitutionMatrix :=
  (substitution_builder_of_stream R).build

theorem stream_freq_count (R : List (List (Option Base) × Record)) :
    ∀ (b : SubstitutionMatrixBuilder) (r x : Base),
      ((R.foldl (fun b pr => b.update pr.1 pr.2) b).freq) r x =
        b.freq r x + (all_mismatches R).count (r, x) := by
  induction R with
  | nil => intro b r x; simp [all_mismatches]
  | cons pr rest ih =>
    intro b r x
    show ((rest.foldl (fun b pr => b.update pr.1 pr.2) (b.update pr.1 pr.2)).freq) r x = _
    rw [ih (b.update pr.1 pr.2) r x]
    show (mismatch_pairs pr.1 pr.2).foldl bumpFreq b.freq r x + _ = _
    rw [foldl_bumpFreq_count]
    have : all_mismatches (pr :: rest) = mismatch_pairs pr.1 pr.2 ++ all_mismatches rest := rfl
    rw [this, List.count_append]
    omega

theorem freq_of_stream_eq_count (R : List (List (Option Base) × Record))
    (r x : Base) :
    (substitution_builder_of_stream R).freq r x = (all_mismatches R).count (r, x) := by
  have := stream_freq_count R SubstitutionMatrixBuilder.default r x
  simpa [substitution_builder_of_stream, SubstitutionMatrixBuilder.default] using this

/-! ### Tag-ids dictionary lemmas. -/

theorem indexOfSchema_append_of_mem (l l2 : List Schema) (sch : Schema)
    (h : sch ∈ l) : indexOfSchema (l ++ l2) sch = indexOfSchema l sch := by
  induction l with
  | nil => cases h
  | cons s rest ih =>
    by_cases hs : s = sch
    · simp [indexOfSchema, hs]
    · have hmem : sch ∈ rest := by
        cases h with
        | head => exact absurd rfl hs
        | tail _ h2 => exact h2
      simp [indexOfSchema, hs, ih hmem]

theorem indexOfSchema_append_self (l : List Schema) (sch : Schema)
    (h : sch ∉ l) : indexOfSchema (l ++ [sch]) sch = some l.length := by
  induction l with
  | nil => simp [indexOfSchema]
  | cons s rest ih =>
    have hs : s ≠ sch := fun hc => h (hc ▸ List.mem_cons_self s rest)
    have hrest : sch ∉ rest := fun hc => h (List.mem_cons_of_mem s hc)
    simp [indexOfSchema, hs, ih hrest]

/-- The dictionary-builder state after a stream of record updates. -/
def apply_tag_updates (b : TagIdsDictionaryBuilder) (recs : List Record) :
    TagIdsDictionaryBuilder :=
  recs.foldl TagIdsDictionaryBuilder.update b

theorem tag_update_entries (b : TagIdsDictionaryBuilder) (rec : Record) :
    (b.update rec).entries = b.entries ∨
      (b.update rec).entries = b.entries ++ [rec.schema] := by
  by_cases h : rec.schema ∈ b.entries
  · left
    simp [TagIdsDictionaryBuilder.update, h]
  · right
    simp [TagIdsDictionaryBuilder.update, h]

theorem index_stable_under_updates (recs : List Record) :
    ∀ (b : TagIdsDictionaryBuilder) (sch : Schema), sch ∈ b.entries →
      indexOfSchema (apply_tag_updates b recs).entries sch =
        indexOfSchema b.entries sch := by
  induction recs with
  | nil => intro b sch _; rfl
  | cons rec rest ih =>
    intro b sch hmem
    show indexOfSchema (apply_tag_updates (b.update rec) rest).entries sch = _
    have hmem2 : sch ∈ (b.update rec).entries := by
      rcases tag_update_entries b rec with h | h
      · rw [h]; exact hmem
      · rw [h]; exact List.mem_append_left _ hmem
    rw [ih (b.update rec) sch hmem2]
    rcases tag_update_entries b rec with h | h
    · rw [h]
    · rw [h, indexOfSchema_append_of_mem _ _ _ hmem]

/-! ### BAM quality scores, from src/src/formats/bam/quality.rs. -/

/-- The ASCII offset added to a raw quality score. -/
def QUALITY_OFFSET : Nat := 33

/-- A BAM per-base quality string: the raw scores. -/
structure Quality where
  qual : List Nat
deriving DecidableEq

/-- Construct a quality value from raw scores. -/
def Quality.new (qual : List Nat) : Quality := ⟨qual⟩

/-- The character sequence the Chars iterator yields front to back: one
character per raw score, offset into the printable ASCII range. -/
def Quality.chars (q : Quality) : List Char :=
  q.qual.map (fun b => Char.ofNat (b + QUALITY_OFFSET))

/-- The character sequence successive next_back calls yield: the same
mapping walked from the back of the underlying slice. -/
def Quality.chars_back (q : Quality) : List Char :=
  q.qual.reverse.map (fun b => Char.ofNat (b + QUALITY_OFFSET))

theorem char_ofNat_toNat (n : Nat) (h : n ≤ 255) : (Char.ofNat n).toNat = n := by
  have hv : n.isValidChar := Or.inl (by omega)
  simp [Char.ofNat, Char.toNat, hv, Char.ofNatAux]
  rfl

/-! ### VCF header Info records, from src/noodles-vcf/src/header/info.rs.
The key, number and type sub-parsers live in files outside the excerpt and
are modelled from the specification of VCF header structured lines. -/

/-- The four required structured-line keys. -/
inductive InfoKey
  | id
  | number
  | ty
  | description
deriving DecidableEq

/-- Modelled from the spec: InfoKey parsing (noodles-vcf header/info/key.rs
is not in the excerpt): the four literal key names parse, anything else is
rejected. -/
def parse_key (s : String) : Option InfoKey :=
  if s = "ID" then some .id
  else if s = "Number" then some .number
  else if s = "Type" then some .ty
  else if s = "Description" then some .description
  else none

/-- A VCF header Number: a concrete count or one of the symbolic classes. -/
inductive VcfNumber
  | count (n : Nat)
  | a
  | r
  | g
  | unknown
deriving DecidableEq

/-- Decimal parsing of a non-empty all-digit character list. -/
def parse_count (cs : List Char) : Option Nat :=
  if cs = [] then none
  else if cs.all (fun c => c.isDigit) then
    some (cs.foldl (fun n c => n * 10 + (c.toNat - 48)) 0)
  else none

/-- Modelled from the spec: Number parsing (noodles-vcf header/number.rs is
not in the excerpt): the symbolic classes A, R, G and the unknown marker,
or a decimal count. -/
def parse_number (s : String) : Option VcfNumber :=
  if s = "A" then some .a
  else if s = "R" then some .r
  else if s = "G" then some .g
  else if s = "." then some .unknown
  else (parse_count s.data).map .count

/-- A VCF header Info value type. -/
inductive InfoType
  | integer
  | float
  | flag
  | character
  | str
deriving DecidableEq

/-- Modelled from the spec: Info Type parsing (noodles-vcf header/info/ty.rs
is not in the excerpt), matching the sibling format type parser plus Flag. -/
def parse_info_type (s : String) : Option InfoType :=
  if s = "Integer" then some .integer
  else if s = "Float" then some .float
  else if s = "Flag" then some .flag
  else if s = "Character" then some .character
  else if s = "String" then some .str
  else none

/-- A VCF header Info record: the four required fields plus the map of any
further raw fields. -/
structure Info where
  id : String
  number : VcfNumber
  ty : InfoType
  description : String
  fields : List (String × String)
deriving DecidableEq

/-- The errors Info parsing can surface. -/
inductive InfoParseError
  | missing_field (k : InfoKey)
  | invalid_number
  | invalid_type
deriving DecidableEq

/-- The fourth iterator step of TryFrom for Info: the Description pair. -/
def try_from_step4 (v1 : String) (num : VcfNumber) (tv : InfoType) :
    List (String × String) → Except InfoParseError Info
  | [] => .error (.missing_field .description)
  | (k4, v4) :: rest4 =>
    match parse_key k4 with
    | some .description => .ok ⟨v1, num, tv, v4, rest4⟩
    | _ => .error (.missing_field .description)

/-- The third iterator step of TryFrom for Info: the Type pair. -/
def try_from_step3 (v1 : String) (num : VcfNumber) :
    List (String × String) → Except InfoParseError Info
  | [] => .error (.missing_field .ty)
  | (k3, v3) :: rest3 =>
    match parse_key k3 with
    | some .ty =>
      match parse_info_type v3 with
      | none => .error .invalid_type
      | some t => try_from_step4 v1 num t rest3
    | _ => .error (.missing_field .ty)

/-- The second iterator step of TryFrom for Info: the Number pair.  Its
mismatched-key arm reports the Id key, as the source does. -/
def try_from_step2 (v1 : String) :
    List (String × String) → Except InfoParseError Info
  | [] => .error (.missing_field .number)
  | (k2, v2) :: rest2 =>
    match parse_key k2 with
    | some .number =>
      match parse_number v2 with
      | none => .error .invalid_number
      | some num => try_from_step3 v1 num rest2
    | _ => .error (.missing_field .id)

/-- TryFrom of a field list for Info, from src/noodles-vcf/src/header/info.rs:
the first four pairs must be ID, Number, Type, Description in that order;
everything after the fourth pair is collected into fields. -/
def Info.try_from : List (String × String) → Except InfoParseError Info
  | [] => .error (.missing_field .id)
  | (k1, v1) :: rest1 =>
    match parse_key k1 with
    | some .id => try_from_step2 v1 rest1
    | _ => .error (.missing_field .id)

/-- The shape a field list must have for Info parsing to succeed: the four
required keys first, in order, with the Number and Type values parsing. -/
def info_shape (fs : List (String × String)) : Prop :=
  ∃ p1 p2 p3 p4 rest, fs = p1 :: p2 :: p3 :: p4 :: rest ∧
    parse_key p1.1 = some .id ∧ parse_key p2.1 = some .number ∧
    (parse_number p2.2).isSome = true ∧ parse_key p3.1 = some .ty ∧
    (parse_info_type p3.2).isSome = true ∧ parse_key p4.1 = some .description

theorem step4_ok_char (v1 : String) (num : VcfNumber) (tv : InfoType)
    (fs : List (String × String)) (info : Info) :
    try_from_step4 v1 num tv fs = .ok info ↔
      ∃ k4 v4 rest, fs = (k4, v4) :: rest ∧
        parse_key k4 = some .description ∧ info = ⟨v1, num, tv, v4, rest⟩ := by
  cases fs with
  | nil => simp [try_from_step4]
  | cons p rest =>
    obtain ⟨k4, v4⟩ := p
    cases hk : parse_key k4 with
    | none => simp [try_from_step4, hk]
    | some key =>
      cases key <;> simp [try_from_step4, hk, eq_comm]
      case description =>
        constructor
        · rintro rfl
          exact ⟨k4, v4, rest, ⟨⟨rfl, rfl⟩, rfl⟩, hk, rfl⟩
        · rintro ⟨a, b, c, ⟨⟨rfl, rfl⟩, rfl⟩, _, h⟩
          exact h

theorem step3_ok_char (v1 : String) (num : VcfNumber)
    (fs : List (String × String)) (info : Info) :
    try_from_step3 v1 num fs = .ok info ↔
      ∃ k3 v3 rest tv, fs = (k3, v3) :: rest ∧ parse_key k3 = some .ty ∧
        parse_info_type v3 = some tv ∧
        try_from_step4 v1 num tv rest = .ok info := by
  cases fs with
  | nil => simp [try_from_step3]
  | cons p rest =>
    obtain ⟨k3, v3⟩ := p
    cases hk : parse_key k3 with
    | none => simp [try_from_step3, hk]
    | some key =>
      cases key <;> simp [try_from_step3, hk]
      case ty =>
        cases ht : parse_info_type v3 with
        | none => simp [ht]
        | some tv =>
          simp [ht]
          constructor
          · intro h
            exact ⟨k3, v3, rest, ⟨⟨rfl, rfl⟩, rfl⟩, hk, tv, ht, h⟩
          · rintro ⟨a, b, c, ⟨⟨rfl, rfl⟩, rfl⟩, _, x, hx, h⟩
            rw [ht] at hx
            obtain rfl := Option.some.inj hx
            exact h

theorem step2_ok_char (v1 : String) (fs : List (String × String))
    (info : Info) :
    try_from_step2 v1 fs = .ok info ↔
      ∃ k2 v2 rest num, fs = (k2, v2) :: rest ∧
        parse_key k2 = some .number ∧ parse_number v2 = some num ∧
        try_from_step3 v1 num rest = .ok info := by
  cases fs with
  | nil => simp [try_from_step2]
  | cons p rest =>
    obtain ⟨k2, v2⟩ := p
    cases hk : parse_key k2 with
    | none => simp [try_from_step2, hk]
    | some key =>
      cases key <;> simp [try_from_step2, hk]
      case number =>
        cases hn : parse_number v2 with
        | none => simp [hn]
        | some num =>
          simp [hn]
          constructor
          · intro h
            exact ⟨k2, v2, rest, ⟨⟨rfl, rfl⟩, rfl⟩, hk, num, hn, h⟩
          · rintro ⟨a, b, c, ⟨⟨rfl, rfl⟩, rfl⟩, _, x, hx, h⟩
            rw [hn] at hx
            obtain rfl := Option.some.inj hx
            exact h

theorem try_from_ok_char (fs : List (String × String)) (info : Info) :
    Info.try_from fs = .ok info ↔
      ∃ k1 v1 rest, fs = (k1, v1) :: rest ∧ parse_key k1 = some .id ∧
        try_from_step2 v1 rest = .ok info := by
  cases fs with
  | nil => simp [Info.try_from]
  | cons p rest =>
    obtain ⟨k1, v1⟩ := p
    cases hk : parse_key k1 with
    | none => simp [Info.try_from, hk]
    | some key =>
      cases key <;> simp [Info.try_from, hk]
      case id =>
        constructor
        · intro h
          exact ⟨k1, v1, rest, ⟨⟨rfl, rfl⟩, rfl⟩, hk, h⟩
        · rintro ⟨a, b, c, ⟨⟨rfl, rfl⟩, rfl⟩, _, h⟩
          exact h

/-! ### Concrete example inputs used by the claims and witnesses. -/

/-- A small concrete compression header. -/
def example_header : CompressionHeader :=
  { preservation_map :=
      { read_names_included := true
        ap_data_series_delta := false
        reference_required := true
        substitution_matrix :=
          ⟨(Base.c, Base.g, Base.t), (Base.a, Base.g, Base.t),
            (Base.a, Base.c, Base.t), (Base.a, Base.c, Base.g)⟩
        tag_ids_dictionary := [[⟨78, 77, 105⟩]] }
    data_series_encodings := [(0, .external 1)]
    tag_encodings := [(0, .byte_array_stop 9 4)] }

/-- A stream whose mismatches against reference base A are G five times,
C three times and T once. -/
def example_stream : List (List (Option Base) × Record) :=
  [(List.replicate 9 (some Base.a),
    { alignment_start := 0
      bases := [some .g, some .g, some .g, some .g, some .g,
        some .c, some .c, some .c, some .t]
      tags := [] })]

/-- The same mismatch multiset as example_stream, split over two records
arriving in a different order. -/
def example_stream_perm : List (List (Option Base) × Record) :=
  [(List.replicate 5 (some Base.a),
    { alignment_start := 0
      bases := [some .c, some .c, some .g, some .g, some .g]
      tags := [] }),
   (List.replicate 4 (some Base.a),
    { alignment_start := 0
      bases := [some .g, some .g, some .c, some .t]
      tags := [] })]

/-- The NM:i tag entry. -/
def nm_i : TagEntry := ⟨78, 77, 105⟩

/-- The MD:Z tag entry. -/
def md_z : TagEntry := ⟨77, 68, 90⟩

/-- The AS:i tag entry. -/
def as_i : TagEntry := ⟨65, 83, 105⟩

/-- A record with tag schema NM:i, MD:Z. -/
def rec_nm_md : Record := ⟨0, [], [nm_i, md_z]⟩

/-- A record with tag schema AS:i. -/
def rec_as : Record := ⟨0, [], [as_i]⟩

/-- The tag-ids dictionary built from a fresh builder over a record list. -/
def dict_of_records (recs : List Record) : List Schema :=
  (apply_tag_updates TagIdsDictionaryBuilder.default recs).build

/-- A VCF Info structured line's fields, with two extra trailing pairs. -/
def example_info_fields : List (String × String) :=
  [("ID", "NS"), ("Number", "1"), ("Type", "Integer"),
   ("Description", "Number of samples with data"),
   ("Source", "dbsnp"), ("Version", "138")]

/-! ### The claims. -/

/-- Claim C1: for every record stream R, parsing the serialized form of the
compression header built from R yields exactly that header (structural
equality of the preservation map with its flags, substitution matrix and
tag-ids dictionary, and of both encoding tables), with the whole buffer
consumed. -/
theorem claim_c1_roundtrip (R : List (List (Option Base) × Record)) :
    read_compression_header_data
        (serialize_compression_header (build_compression_header R)) =
      .ok (build_compression_header R, []) := by
  have h := rt_compression_header (build_compression_header R) []
  rwa [List.append_nil] at h

/-- Claim C2: whenever the compression-header reader succeeds on an input
buffer, the buffer splits into exactly three contiguous segments consumed in
the fixed order preservation map, data-series encoding table, tag encoding
table, each segment parsed by its own reader. -/
theorem claim_c2_segment_order (s : List Nat) (h : CompressionHeader)
    (r : List Nat) (hp : read_compression_header_data s = .ok (h, r)) :
    ∃ c1 c2 c3, s = c1 ++ (c2 ++ (c3 ++ r)) ∧
      (∀ t, read_preservation_map (c1 ++ t) = .ok (h.preservation_map, t)) ∧
      (∀ t, read_data_series_encodings (c2 ++ t) =
        .ok (h.data_series_encodings, t)) ∧
      (∀ t, read_tag_encodings (c3 ++ t) = .ok (h.tag_encodings, t)) := by
  unfold read_compression_header_data at hp
  cases h1 : read_preservation_map s with
  | error e =>
    rw [rd_bind_err h1] at hp
    exact absurd hp (by simp)
  | ok v1 =>
    obtain ⟨pm, s1⟩ := v1
    rw [rd_bind_ok h1] at hp
    cases h2 : read_data_series_encodings s1 with
    | error e =>
      rw [rd_bind_err h2] at hp
      exact absurd hp (by simp)
    | ok v2 =>
      obtain ⟨ds, s2⟩ := v2
      rw [rd_bind_ok h2] at hp
      unfold rd_map at hp
      cases h3 : read_tag_encodings s2 with
      | error e =>
        rw [rd_bind_err h3] at hp
        exact absurd hp (by simp)
      | ok v3 =>
        obtain ⟨te, s3⟩ := v3
        rw [rd_bind_ok h3] at hp
        have e1 : ((⟨pm, ds, te⟩ : CompressionHeader), s3) = (h, r) :=
          Except.ok.inj hp
        obtain ⟨e2, e3⟩ := (Prod.mk.injEq _ _ _ _).mp e1
        subst e2
        subst e3
        obtain ⟨c1, hc1, run1⟩ := consumes_preservation_map s pm s1 h1
        obtain ⟨c2, hc2, run2⟩ := consumes_data_series_encodings s1 ds s2 h2
        obtain ⟨c3, hc3, run3⟩ := consumes_tag_encodings s2 te s3 h3
        refine ⟨c1, c2, c3, ?_, run1, run2, run3⟩
        rw [hc1, hc2, hc3]

/-- Claim C3: truncating the serialized form of any compression header at
any boundary before its end makes the parse fail with truncated_header; no
header is ever produced from a truncated buffer. -/
theorem claim_c3_truncation (h : CompressionHeader) (k : Nat)
    (hk : k < (serialize_compression_header h).length) :
    read_compression_header_data ((serialize_compression_header h).take k) =
      .error .truncated_header := by
  cases hres : read_compression_header_data
      ((serialize_compression_header h).take k) with
  | error e => cases e; rfl
  | ok v =>
    exfalso
    obtain ⟨a, r⟩ := v
    obtain ⟨c, hc, hrun⟩ := consumes_compression_header _ a r hres
    have hfull : serialize_compression_header h =
        (serialize_compression_header h).take k ++
          (serialize_compression_header h).drop k :=
      (List.take_append_drop k _).symm
    have hsplit : serialize_compression_header h =
        c ++ (r ++ (serialize_compression_header h).drop k) := by
      conv_lhs => rw [hfull, hc]
      rw [List.append_assoc]
    have hruns : read_compression_header_data (serialize_compression_header h) =
        .ok (a, r ++ (serialize_compression_header h).drop k) := by
      conv_lhs => rw [hsplit]
      exact hrun _
    have hrt := rt_compression_header h []
    rw [List.append_nil] at hrt
    rw [hrt] at hruns
    have e1 := Except.ok.inj hruns
    obtain ⟨-, e3⟩ := (Prod.mk.injEq _ _ _ _).mp e1
    have hdrop : (serialize_compression_header h).drop k = [] :=
      (List.append_eq_nil.mp e3.symm).2
    have := List.drop_eq_nil_iff.mp hdrop
    omega

/-- Claim C4: decompressed_data fails with unsupported_method on an
unrecognized compression-method tag and with corrupt_payload when the
checksum does not match after decompression or when the output length
differs from the declared raw size (in particular raw_size 100 against a
90-byte output); a success always returns bytes of exactly the declared
size with a matching checksum. -/
theorem claim_c4_block_decompress :
    (∀ b : Block, b.compression_method ≠ 0 →
      b.decompressed_data = .error .unsupported_method) ∧
    (∀ (b : Block) (data : List Nat),
      decompress b.compression_method b.payload = some data →
      blockChecksum data ≠ b.checksum →
      b.decompressed_data = .error .corrupt_payload) ∧
    (∀ (b : Block) (data : List Nat),
      decompress b.compression_method b.payload = some data →
      data.length = 90 → b.raw_size = 100 →
      b.decompressed_data = .error .corrupt_payload) ∧
    (∀ (b : Block) (data : List Nat), b.decompressed_data = .ok data →
      data.length = b.raw_size ∧ blockChecksum data = b.checksum) := by
  refine ⟨?_, ?_, ?_, ?_⟩
  · intro b hm
    simp [Block.decompressed_data, decompress, hm]
  · intro b data hdec hchk
    unfold Block.decompressed_data
    rw [hdec]
    show (if data.length = b.raw_size ∧ blockChecksum data = b.checksum then
        Except.ok data else Except.error BlockError.corrupt_payload) = _
    rw [if_neg]
    intro hcond
    exact hchk hcond.2
  · intro b data hdec hlen hraw
    unfold Block.decompressed_data
    rw [hdec]
    show (if data.length = b.raw_size ∧ blockChecksum data = b.checksum then
        Except.ok data else Except.error BlockError.corrupt_payload) = _
    rw [if_neg]
    intro hcond
    rw [hlen, hraw] at hcond
    exact absurd hcond.1 (by omega)
  · intro b data hok
    unfold Block.decompressed_data at hok
    cases hdec : decompress b.compression_method b.payload with
    | none =>
      rw [hdec] at hok
      exact absurd hok (by simp)
    | some d =>
      rw [hdec] at hok
      have hok2 : (if d.length = b.raw_size ∧ blockChecksum d = b.checksum then
          Except.ok d else Except.error BlockError.corrupt_payload) =
          Except.ok data := hok
      by_cases hcond : d.length = b.raw_size ∧ blockChecksum d = b.checksum
      · rw [if_pos hcond] at hok2
        obtain rfl := Except.ok.inj hok2
        exact hcond
      · rw [if_neg hcond] at hok2
        exact absurd hok2 (by simp)

/-- Claim C5: the substitution matrix built from a record stream is a
function of the multiset of observed (reference base, alternate base)
mismatch pairs only: streams with permuted mismatch multisets build the same
matrix; and reference base A with mismatches G five times, C three times and
T once ranks its alternates G, C, T, with rank 0 decoding to G. -/
theorem claim_c5_substitution_matrix :
    (∀ R1 R2 : List (List (Option Base) × Record),
      (all_mismatches R1).Perm (all_mismatches R2) →
      substitution_matrix_of_stream R1 = substitution_matrix_of_stream R2) ∧
    (substitution_matrix_of_stream example_stream).rowA =
      (Base.g, Base.c, Base.t) ∧
    (substitution_matrix_of_stream example_stream).get Base.a 0 = Base.g := by
  refine ⟨?_, by decide, by decide⟩
  intro R1 R2 hperm
  have hfreq : (substitution_builder_of_stream R1).freq =
      (substitution_builder_of_stream R2).freq := by
    funext r x
    rw [freq_of_stream_eq_count, freq_of_stream_eq_count]
    exact hperm.countP_eq _
  show (substitution_builder_of_stream R1).build =
    (substitution_builder_of_stream R2).build
  unfold SubstitutionMatrixBuilder.build
  rw [hfreq]

/-- Claim C6: the tag-ids dictionary assigns schema indices in first-seen
order and deduplicates: records with equal schemas get equal indices, a seen
schema leaves the builder unchanged and keeps its index, a new schema is
appended with the next index and every existing index survives later
updates; the NM:i,MD:Z then AS:i then NM:i,MD:Z example builds the
two-schema dictionary with the third record resolving to index 0. -/
theorem claim_c6_tag_dictionary :
    (∀ (b : TagIdsDictionaryBuilder) (r1 r2 : Record),
      r1.schema = r2.schema →
      indexOfSchema (b.update r1).entries r1.schema =
        indexOfSchema (b.update r2).entries r2.schema) ∧
    (∀ (b : TagIdsDictionaryBuilder) (rec : Record),
      rec.schema ∈ b.entries → b.update rec = b) ∧
    (∀ (b : TagIdsDictionaryBuilder) (rec : Record),
      rec.schema ∉ b.entries →
      (b.update rec).entries = b.entries ++ [rec.schema] ∧
      indexOfSchema (b.update rec).entries rec.schema =
        some b.entries.length) ∧
    (∀ (b : TagIdsDictionaryBuilder) (recs : List Record) (sch : Schema),
      sch ∈ b.entries →
      indexOfSchema (apply_tag_updates b recs).entries sch =
        indexOfSchema b.entries sch) ∧
    (dict_of_records [rec_nm_md, rec_as, rec_nm_md] =
        [[nm_i, md_z], [as_i]] ∧
      indexOfSchema (dict_of_records [rec_nm_md, rec_as, rec_nm_md])
        rec_nm_md.schema = some 0) := by
  refine ⟨?_, ?_, ?_, ?_, by decide⟩
  · intro b r1 r2 hsch
    simp [TagIdsDictionaryBuilder.update, hsch]
  · intro b rec hmem
    simp [TagIdsDictionaryBuilder.update, hmem]
  · intro b rec hmem
    refine ⟨by simp [TagIdsDictionaryBuilder.update, hmem], ?_⟩
    have hent : (b.update rec).entries = b.entries ++ [rec.schema] := by
      simp [TagIdsDictionaryBuilder.update, hmem]
    rw [hent]
    exact indexOfSchema_append_self _ _ hmem
  · intro b recs sch hmem
    exact index_stable_under_updates recs b sch hmem

/-- Claim C7: a default preservation-map builder has all three policy flags
true, and building it without calling any setter yields a preservation map
whose three flags are all true. -/
theorem claim_c7_default_flags :
    PMBuilder.default.read_names_included = true ∧
    PMBuilder.default.ap_data_series_delta = true ∧
    PMBuilder.default.reference_required = true ∧
    PMBuilder.default.build.read_names_included = true ∧
    PMBuilder.default.build.ap_data_series_delta = true ∧
    PMBuilder.default.build.reference_required = true :=
  ⟨rfl, rfl, rfl, rfl, rfl, rfl⟩

/-- Claim C8: update on the preservation-map builder changes only the two
statistics sub-builders, delegating to them, and leaves the three policy
flags untouched. -/
theorem claim_c8_update_frame (b : PMBuilder)
    (reference : List (Option Base)) (rec : Record) :
    (b.update reference rec).read_names_included = b.read_names_included ∧
    (b.update reference rec).ap_data_series_delta = b.ap_data_series_delta ∧
    (b.update reference rec).reference_required = b.reference_required ∧
    (b.update reference rec).substitution_matrix_builder =
      b.substitution_matrix_builder.update reference rec ∧
    (b.update reference rec).tag_ids_dictionary_builder =
      b.tag_ids_dictionary_builder.update rec :=
  ⟨rfl, rfl, rfl, rfl, rfl⟩

/-- Claim C9: for quality scores at most 222, the chars iterator yields one
character per underlying byte, in order, with character code byte + 33, and
iterating from the back yields the same characters reversed. -/
theorem claim_c9_quality_chars (q : Quality) (hq : ∀ b ∈ q.qual, b ≤ 222) :
    q.chars.length = q.qual.length ∧
    (∀ i : Nat, (q.chars[i]?).map Char.toNat =
      (q.qual[i]?).map (fun b => b + QUALITY_OFFSET)) ∧
    q.chars_back = q.chars.reverse := by
  refine ⟨by simp [Quality.chars], ?_,
    by simp [Quality.chars, Quality.chars_back, List.map_reverse]⟩
  intro i
  simp only [Quality.chars, List.getElem?_map]
  cases hb : q.qual[i]? with
  | none => simp
  | some b =>
    have hmem : b ∈ q.qual := List.getElem?_mem hb
    have h255 : b + QUALITY_OFFSET ≤ 255 := by
      have := hq b hmem
      unfold QUALITY_OFFSET
      omega
    simp [char_ofNat_toNat _ h255]

/-- Claim C10: Info.try_from succeeds exactly when the first four pairs are
ID, Number, Type, Description in that positional order with the Number and
Type values parsing, and on success every pair after the fourth is collected
unchanged into the fields map; any reordering or omission is rejected. -/
theorem claim_c10_info_try_from (fs : List (String × String)) :
    ((∃ info, Info.try_from fs = .ok info) ↔ info_shape fs) ∧
    (∀ info, Info.try_from fs = .ok info → info.fields = fs.drop 4) := by
  constructor
  · constructor
    · rintro ⟨info, h⟩
      rw [try_from_ok_char] at h
      obtain ⟨k1, v1, rest1, rfl, hk1, h⟩ := h
      rw [step2_ok_char] at h
      obtain ⟨k2, v2, rest2, num, rfl, hk2, hn, h⟩ := h
      rw [step3_ok_char] at h
      obtain ⟨k3, v3, rest3, tv, rfl, hk3, ht, h⟩ := h
      rw [step4_ok_char] at h
      obtain ⟨k4, v4, rest4, rfl, hk4, rfl⟩ := h
      exact ⟨(k1, v1), (k2, v2), (k3, v3), (k4, v4), rest4, rfl, hk1, hk2,
        by simp [hn], hk3, by simp [ht], hk4⟩
    · rintro ⟨⟨k1, v1⟩, ⟨k2, v2⟩, ⟨k3, v3⟩, ⟨k4, v4⟩, rest, rfl,
        hk1, hk2, hn, hk3, ht, hk4⟩
      obtain ⟨num, hnum⟩ := Option.isSome_iff_exists.mp hn
      obtain ⟨tv, htv⟩ := Option.isSome_iff_exists.mp ht
      refine ⟨⟨v1, num, tv, v4, rest⟩, ?_⟩
      rw [try_from_ok_char]
      refine ⟨k1, v1, _, rfl, hk1, ?_⟩
      rw [step2_ok_char]
      refine ⟨k2, v2, _, num, rfl, hk2, hnum, ?_⟩
      rw [step3_ok_char]
      refine ⟨k3, v3, _, tv, rfl, hk3, htv, ?_⟩
      rw [step4_ok_char]
      exact ⟨k4, v4, rest, rfl, hk4, rfl⟩
  · intro info h
    rw [try_from_ok_char] at h
    obtain ⟨k1, v1, rest1, rfl, hk1, h⟩ := h
    rw [step2_ok_char] at h
    obtain ⟨k2, v2, rest2, num, rfl, hk2, hn, h⟩ := h
    rw [step3_ok_char] at h
    obtain ⟨k3, v3, rest3, tv, rfl, hk3, ht, h⟩ := h
    rw [step4_ok_char] at h
    obtain ⟨k4, v4, rest4, rfl, hk4, rfl⟩ := h
    rfl

/-! ### Witnesses: each hypothesis-bearing claim applied at one concrete
input. -/

/-- Witness for C2 at a concrete serialized header. -/
theorem claim_c2_witness :
    ∃ c1 c2 c3, serialize_compression_header example_header =
        c1 ++ (c2 ++ (c3 ++ ([] : List Nat))) ∧
      (∀ t, read_preservation_map (c1 ++ t) =
        .ok (example_header.preservation_map, t)) ∧
      (∀ t, read_data_series_encodings (c2 ++ t) =
        .ok (example_header.data_series_encodings, t)) ∧
      (∀ t, read_tag_encodings (c3 ++ t) =
        .ok (example_header.tag_encodings, t)) :=
  claim_c2_segment_order (serialize_compression_header example_header)
    example_header [] rfl

/-- Witness for C3 at a concrete truncation point. -/
theorem claim_c3_witness :
    read_compression_header_data
        ((serialize_compression_header example_header).take 5) =
      .error .truncated_header :=
  claim_c3_truncation example_header 5 (by decide)

/-- Witness for C4: the raw_size 100 block whose payload decompresses to 90
bytes fails with corrupt_payload. -/
theorem claim_c4_witness :
    ({ compression_method := 0, raw_size := 100, compressed_size := 90,
        checksum := 0, payload := List.replicate 90 0 } : Block).decompressed_data =
      .error .corrupt_payload :=
  claim_c4_block_decompress.2.2.1 _ (List.replicate 90 0) (by decide)
    (by decide) (by decide)

/-- Witness for C5: the example stream and its two-record permutation build
the same matrix. -/
theorem claim_c5_witness :
    substitution_matrix_of_stream example_stream =
      substitution_matrix_of_stream example_stream_perm :=
  claim_c5_substitution_matrix.1 example_stream example_stream_perm (by decide)

/-- Witness for C6: an index survives two further updates. -/
theorem claim_c6_witness :
    indexOfSchema
        (apply_tag_updates ⟨[[nm_i, md_z]]⟩ [rec_as, rec_nm_md]).entries
        [nm_i, md_z] =
      indexOfSchema [[nm_i, md_z]] [nm_i, md_z] :=
  claim_c6_tag_dictionary.2.2.2.1 ⟨[[nm_i, md_z]]⟩ [rec_as, rec_nm_md]
    [nm_i, md_z] (by decide)

/-- Witness for C9 at a concrete quality vector. -/
theorem claim_c9_witness :
    (Quality.new [0, 40, 222]).chars_back =
      (Quality.new [0, 40, 222]).chars.reverse :=
  (claim_c9_quality_chars (Quality.new [0, 40, 222]) (by decide)).2.2

/-- Witness for C10 at the concrete example field list. -/
theorem claim_c10_witness :
    ({ id := "NS", number := .count 1, ty := .integer,
        description := "Number of samples with data",
        fields := [("Source", "dbsnp"), ("Version", "138")] } : Info).fields =
      example_info_fields.drop 4 :=
  (claim_c10_info_try_from example_info_fields).2 _ (by rfl)

end Noodles
